import Mathlib

/-!
Shallow embedding of the peripheral-emulation layer of the cyd-80
Z80/8080 simulator: the disk/FDC module (src/main/disks.c) and the
I/O-port module (src/main/simio.c).

File-system and console effects are modelled by explicit oracle fields
in environment records (whether an open/seek succeeds, what a read
returns) and by event traces listing the file and DMA operations a call
performs, in order.  The geometry constants TRK, SPT, SEC_SZ and the
MMU constant NUMSEG come from headers outside this module and are kept
as parameters.
-/

namespace Cyd80

/-- FDC status codes returned by the sector I/O routines
    (constants from sd-fdc.h, kept abstract as an enumeration). -/
inductive FdcStat where
  | FDC_STAT_OK
  | FDC_STAT_DISK
  | FDC_STAT_TRACK
  | FDC_STAT_SEC
  | FDC_STAT_DMAADR
  | FDC_STAT_NODISK
  | FDC_STAT_SEEK
  | FDC_STAT_READ
  | FDC_STAT_WRITE
  deriving DecidableEq, Repr

/-- Observable file-system / DMA events performed by a disk routine,
    in program order. -/
inductive Ev where
  | openf (path : String)
  | seekf (pos : Int)
  | readf (n : Nat)
  | writef (n : Nat)
  | dmaW (addr : Nat) (b : Nat)
  | dmaR (addr : Nat)
  | closef
  deriving DecidableEq, Repr

/-- Environment for a single sector-I/O call: geometry constants and
    the outcome the underlying file system would give each operation.
    readRes: none models a negative return from read(); some bs models
    a successful read returning bs.length bytes.  writeRes likewise for
    write().  disks is the registry lookup disks[drive]; it is only
    consulted after the 0 ≤ drive ≤ 3 bounds check, as in the C. -/
structure DiskEnv where
  TRK : Int
  SPT : Int
  SEC_SZ : Nat
  disks : Int → String
  openOk : Bool
  seekOk : Bool
  readRes : Option (List Nat)
  writeRes : Option Nat

/-- Byte offset of a sector in the flat disk image, exactly the pos
    expression in prep_io: ((track * SPT) + sector - 1) * SEC_SZ. -/
def sec_pos (SPT : Int) (SEC_SZ : Nat) (track sector : Int) : Int :=
  ((track * SPT) + sector - 1) * (SEC_SZ : Int)

/-- prep_io from disks.c: validation checks in source order, then the
    open and seek, returning the status and the trace of file events. -/
def prep_io (env : DiskEnv) (drive track sector : Int) (addr : Nat) :
    FdcStat × List Ev :=
  if drive < 0 ∨ drive > 3 then
    (.FDC_STAT_DISK, [])
  else if track > env.TRK then
    (.FDC_STAT_TRACK, [])
  else if sector < 1 ∨ sector > env.SPT then
    (.FDC_STAT_SEC, [])
  else if addr > 0xff7f then
    (.FDC_STAT_DMAADR, [])
  else
    let path := env.disks drive
    if path = "" then
      (.FDC_STAT_NODISK, [])
    else if ¬ env.openOk then
      (.FDC_STAT_NODISK, [.openf path])
    else
      let pos := sec_pos env.SPT env.SEC_SZ track sector
      if ¬ env.seekOk then
        (.FDC_STAT_SEEK, [.openf path, .seekf pos, .closef])
      else
        (.FDC_STAT_OK, [.openf path, .seekf pos])

/-- read_sec from disks.c: after a successful prep_io, read SEC_SZ
    bytes; a short or negative read yields FDC_STAT_READ with no DMA
    writes; a full read copies the buffer into memory byte by byte. -/
def read_sec (env : DiskEnv) (drive track sector : Int) (addr : Nat) :
    FdcStat × List Ev :=
  let p := prep_io env drive track sector addr
  if p.1 = .FDC_STAT_OK then
    match env.readRes with
    | none => (.FDC_STAT_READ, p.2 ++ [.readf env.SEC_SZ, .closef])
    | some bs =>
      if bs.length < env.SEC_SZ then
        (.FDC_STAT_READ, p.2 ++ [.readf env.SEC_SZ, .closef])
      else
        (.FDC_STAT_OK,
         p.2 ++ [.readf env.SEC_SZ] ++
           ((bs.take env.SEC_SZ).enum.map fun q => .dmaW (addr + q.1) q.2) ++
           [.closef])
  else p

/-- write_sec from disks.c: after a successful prep_io, copy SEC_SZ
    bytes out of memory into the buffer, then write them; a short or
    negative write yields FDC_STAT_WRITE. -/
def write_sec (env : DiskEnv) (drive track sector : Int) (addr : Nat) :
    FdcStat × List Ev :=
  let p := prep_io env drive track sector addr
  if p.1 = .FDC_STAT_OK then
    let dmas := (List.range env.SEC_SZ).map fun i => Ev.dmaR (addr + i)
    match env.writeRes with
    | none => (.FDC_STAT_WRITE, p.2 ++ dmas ++ [.writef env.SEC_SZ, .closef])
    | some n =>
      if n < env.SEC_SZ then
        (.FDC_STAT_WRITE, p.2 ++ dmas ++ [.writef env.SEC_SZ, .closef])
      else
        (.FDC_STAT_OK, p.2 ++ dmas ++ [.writef env.SEC_SZ, .closef])
  else p

/-- The canonical disk-image path built by mount_disk:
    SD_MNTDIR ++ "/DISKS80/" ++ name ++ ".DSK". -/
def canon_path (name : String) : String :=
  "/sdcard" ++ "/DISKS80/" ++ name ++ ".DSK"

/-- mount_disk from disks.c over the registry disks : Fin 4 → String.
    The openOk flag models whether open(SFN, O_RDONLY) succeeds.
    Returns the new registry and the file-event trace. -/
def mount_disk (openOk : Bool) (drive : Fin 4) (name : String)
    (disks : Fin 4 → String) : (Fin 4 → String) × List Ev :=
  let SFN := canon_path name
  if ∃ i : Fin 4, i ≠ drive ∧ disks i = SFN then
    (disks, [])
  else if ¬ openOk then
    (disks, [.openf SFN])
  else
    (Function.update disks drive SFN, [.openf SFN, .closef])

/-- Result of the bulk loader load_file in disks.c: either the fread
    error report (a negative read) or the loaded-n-bytes report. -/
inductive LoadResult where
  | err
  | loaded (total : Nat)
  deriving DecidableEq, Repr

/-- The read loop of load_file in disks.c.  The list models the
    successive results of read(sd_file, dsk_buf, SEC_SZ): none is a
    negative return, some chunk a successful read of chunk.length
    bytes; an exhausted list stands for read() returning 0 (EOF).
    i is the current load address; the second component lists the
    dma_write calls (address, byte) in order. -/
def load_file_run (SEC_SZ : Nat) :
    List (Option (List Nat)) → Nat → LoadResult × List (Nat × Nat)
  | [], i => (.loaded i, [])
  | none :: _, _ => (.err, [])
  | some chunk :: rest, i =>
    if chunk.length = 0 then
      (.loaded i, [])
    else
      let ws := chunk.enum.map fun q => (i + q.1, q.2)
      if chunk.length < SEC_SZ then
        (.loaded (i + chunk.length), ws)
      else
        let r := load_file_run SEC_SZ rest (i + SEC_SZ)
        (r.1, ws ++ r.2)

/-- load_file from disks.c: open CODE80/name.BIN; on failure report
    not-found; otherwise run the read loop starting at address 0. -/
def load_file (openOk : Bool) (SEC_SZ : Nat)
    (reads : List (Option (List Nat))) :
    Option (LoadResult × List (Nat × Nat)) :=
  if ¬ openOk then none
  else some (load_file_run SEC_SZ reads 0)

/-- CPU error kinds (from simdefs.h) used by this module. -/
inductive CpuErr where
  | NONE
  | IOERROR
  | IOHALT
  | USERINT
  deriving DecidableEq, Repr

/-- CPU run state: ST_STOPPED vs. running. -/
inductive CpuState where
  | running
  | stopped
  deriving DecidableEq, Repr

/-- Emulated CPU model. -/
inductive CpuModel where
  | Z80
  | I8080
  deriving DecidableEq, Repr

/-- The mutable state the simio.c handlers touch: the module statics
    (sio_last, fp_value, hwctl_lock), the MMU globals (selbnk, curbnk —
    curbnk abstracted to the index of the bank pointer), and the CPU
    globals.  did_reset records a call to reset_cpu/reset_memory
    (external functions modelled as a marker). -/
structure SimIOState where
  sio_last : Nat
  fp_value : Nat
  hwctl_lock : Nat
  selbnk : Nat
  curbnk : Nat
  cpu_error : CpuErr
  cpu_state : CpuState
  cpu : CpuModel
  PC : Nat
  did_reset : Bool
  deriving DecidableEq, Repr

/-- Initial values of the simio.c statics and globals at program
    start: sio_last and fp_value are zero-initialised statics,
    hwctl_lock starts at 0xff (locked), the power-on jump sets
    PC to 0xff00. -/
def init_state : SimIOState :=
  { sio_last := 0, fp_value := 0, hwctl_lock := 0xff,
    selbnk := 0, curbnk := 0, cpu_error := .NONE,
    cpu_state := .running, cpu := .Z80, PC := 0xff00,
    did_reset := false }

/-- siod_in from simio.c: pending tells whether the UART has buffered
    input, c is the byte getchar() would yield.  Returns the byte read
    and the successor state. -/
def siod_in (pending : Bool) (c : Nat) (s : SimIOState) :
    Nat × SimIOState :=
  if pending then (c, { s with sio_last := c })
  else (s.sio_last, s)

/-- mmu_in from simio.c: max bank in the upper nibble, selected bank
    in the lower nibble. -/
def mmu_in (NUMSEG : Nat) (s : SimIOState) : Nat :=
  (NUMSEG <<< 4) ||| s.selbnk

/-- hwctl_in from simio.c: the lock status byte. -/
def hwctl_in (s : SimIOState) : Nat :=
  s.hwctl_lock

/-- fpsw_in from simio.c: the virtual front-panel switches byte. -/
def fpsw_in (s : SimIOState) : Nat :=
  s.fp_value

/-- mmu_out from simio.c, verbatim: the range check is on the OLD
    selbnk, then selbnk is set to data and, when nonzero, curbnk to
    bnks[selbnk - 1] (bnks abstracted to a map from index). -/
def mmu_out (NUMSEG : Nat) (bnks : Nat → Nat) (data : Nat)
    (s : SimIOState) : SimIOState :=
  if s.selbnk > NUMSEG then
    { s with cpu_error := .IOERROR, cpu_state := .stopped }
  else
    let s1 := { s with selbnk := data }
    if s1.selbnk ≠ 0 then { s1 with curbnk := bnks (s1.selbnk - 1) }
    else s1

/-- hwctl_out from simio.c: the lock/unlock protocol and the
    privileged command bits (both CPU models compiled in). -/
def hwctl_out (data : Nat) (s : SimIOState) : SimIOState :=
  if s.hwctl_lock ≠ 0 ∧ data ≠ 0xaa then
    s
  else if s.hwctl_lock ≠ 0 ∧ data = 0xaa then
    { s with hwctl_lock := 0 }
  else
    let s1 := { s with hwctl_lock := 0xff }
    if data &&& 128 ≠ 0 then
      { s1 with cpu_error := .IOHALT, cpu_state := .stopped }
    else if data &&& 64 ≠ 0 then
      { s1 with did_reset := true, PC := 0xff00 }
    else if data &&& 32 ≠ 0 then
      { s1 with cpu := .Z80 }
    else if data &&& 16 ≠ 0 then
      { s1 with cpu := .I8080 }
    else s1

/-- fpsw_out from simio.c: set the front-panel switches byte. -/
def fpsw_out (data : Nat) (s : SimIOState) : SimIOState :=
  { s with fp_value := data }

/-- fpled_out from simio.c: dummy, the byte is discarded. -/
def fpled_out (data : Nat) (s : SimIOState) : SimIOState :=
  s

/-- Names of the input handlers bound in the port_in table. -/
inductive InH where
  | sios | siod | fdc | mmu | clkc | clkd | hwctl | fpsw | unbound
  deriving DecidableEq, Repr

/-- Names of the output handlers bound in the port_out table. -/
inductive OutH where
  | led | siod | fdc | mmu | clkc | clkd | hwctl | fpsw | fpled | unbound
  deriving DecidableEq, Repr

/-- The port_in dispatch table of simio.c as a total map from port
    number to handler name. -/
def port_in_tab (p : Nat) : InH :=
  match p with
  | 0 => .sios
  | 1 => .siod
  | 4 => .fdc
  | 64 => .mmu
  | 65 => .clkc
  | 66 => .clkd
  | 160 => .hwctl
  | 254 => .fpsw
  | 255 => .fpsw
  | _ => .unbound

/-- The port_out dispatch table of simio.c as a total map from port
    number to handler name. -/
def port_out_tab (p : Nat) : OutH :=
  match p with
  | 0 => .led
  | 1 => .siod
  | 4 => .fdc
  | 64 => .mmu
  | 65 => .clkc
  | 66 => .clkd
  | 160 => .hwctl
  | 254 => .fpsw
  | 255 => .fpled
  | _ => .unbound

/-- Input dispatch restricted to the handlers whose value is a pure
    function of SimIOState (hwctl, fpsw); handlers that consult the
    UART, the FDC or the RTC return none here. -/
def in_dispatch (p : Nat) (s : SimIOState) : Option Nat :=
  match port_in_tab p with
  | .hwctl => some (hwctl_in s)
  | .fpsw => some (fpsw_in s)
  | _ => none

/-- Output dispatch restricted to the handlers that act only on
    SimIOState fields (hwctl, fpsw, fpled); the led, console, FDC, RTC
    and MMU handlers act on hardware or need extra parameters and
    leave this state untouched here. -/
def out_dispatch (p : Nat) (data : Nat) (s : SimIOState) : SimIOState :=
  match port_out_tab p with
  | .hwctl => hwctl_out data s
  | .fpsw => fpsw_out data s
  | .fpled => fpled_out data s
  | _ => s

/-- Run a sequence of output bytes through the hardware control
    port. -/
def hwctl_run (s : SimIOState) : List Nat → SimIOState
  | [] => s
  | b :: bs => hwctl_run (hwctl_out b s) bs

/-- Number of bytes of the sequence that the hardware control port
    consumes as privileged commands (those arriving in the UNLOCKED
    state). -/
def hwctl_cmds (s : SimIOState) : List Nat → Nat
  | [] => 0
  | b :: bs =>
    (if s.hwctl_lock = 0 then 1 else 0) + hwctl_cmds (hwctl_out b s) bs

/-- Number of bytes of the sequence consumed as unlocks (0xaa arriving
    in a LOCKED state). -/
def hwctl_unlocks (s : SimIOState) : List Nat → Nat
  | [] => 0
  | b :: bs =>
    (if s.hwctl_lock ≠ 0 ∧ b = 0xaa then 1 else 0) +
      hwctl_unlocks (hwctl_out b s) bs

/-! ## Helper lemmas -/

lemma hwctl_out_lock_of_unlocked (b : Nat) (s : SimIOState)
    (h : s.hwctl_lock = 0) : (hwctl_out b s).hwctl_lock = 0xff := by
  unfold hwctl_out
  simp only [h, ne_eq, not_true_eq_false, false_and, if_false]
  split_ifs <;> rfl

lemma hwctl_out_locked_nonaa (b : Nat) (s : SimIOState)
    (h : s.hwctl_lock ≠ 0) (hb : b ≠ 0xaa) : hwctl_out b s = s := by
  unfold hwctl_out
  simp [h, hb]

lemma hwctl_out_locked_aa (s : SimIOState) (h : s.hwctl_lock ≠ 0) :
    hwctl_out 0xaa s = { s with hwctl_lock := 0 } := by
  unfold hwctl_out
  simp [h]

lemma hwctl_out_aa_unlocked (s : SimIOState) (h : s.hwctl_lock = 0) :
    hwctl_out 0xaa s =
      { s with hwctl_lock := 0xff, cpu_error := .IOHALT,
               cpu_state := .stopped } := by
  have hc : ¬ ((0xaa : Nat) &&& 128 = 0) := by decide
  unfold hwctl_out
  simp [h, hc]

lemma hwctl_cmds_le_unlocks (bs : List Nat) :
    ∀ s : SimIOState,
      hwctl_cmds s bs ≤
        hwctl_unlocks s bs + (if s.hwctl_lock = 0 then 1 else 0) := by
  induction bs with
  | nil => intro s; simp [hwctl_cmds, hwctl_unlocks]
  | cons b bs ih =>
    intro s
    simp only [hwctl_cmds, hwctl_unlocks]
    by_cases h : s.hwctl_lock = 0
    · have h2 := hwctl_out_lock_of_unlocked b s h
      have h3 := ih (hwctl_out b s)
      rw [h2, if_neg (by decide : ¬ ((0xff : Nat) = 0))] at h3
      have hu : ¬ (s.hwctl_lock ≠ 0 ∧ b = 0xaa) := fun hc => hc.1 h
      rw [if_pos h, if_neg hu]
      omega
    · by_cases hb : b = 0xaa
      · subst hb
        have hl : (hwctl_out 0xaa s).hwctl_lock = 0 := by
          rw [hwctl_out_locked_aa s h]
        have h3 := ih (hwctl_out 0xaa s)
        rw [if_pos hl] at h3
        rw [if_neg h, if_pos ⟨h, rfl⟩]
        omega
      · have h2 := hwctl_out_locked_nonaa b s h hb
        have h3 := ih (hwctl_out b s)
        rw [h2, if_neg h] at h3
        have hu : ¬ (s.hwctl_lock ≠ 0 ∧ b = 0xaa) := fun hc => hb hc.2
        rw [h2, if_neg h, if_neg hu]
        omega

/-! ## Claims about the I/O port handlers -/

/-- C1: the spec requires that an MMU bank write of a byte b greater
    than NUMSEG halts the CPU with an IO error and leaves the selected
    bank unchanged.  The code instead range-checks the OLD selbnk, so
    at the failing input (NUMSEG = 7, selbnk = 0, b = 8) the write is
    accepted: selbnk becomes the non-existing bank 8 and the CPU keeps
    running with no error — contradicting the error message the code
    itself logs for this case. -/
theorem mmu_out_accepts_out_of_range_bank :
    (mmu_out 7 (fun i => i) 8 init_state).selbnk = 8 ∧
    (mmu_out 7 (fun i => i) 8 init_state).cpu_state = CpuState.running ∧
    (mmu_out 7 (fun i => i) 8 init_state).cpu_error = CpuErr.NONE ∧
    init_state.selbnk = 0 ∧ (7 : Nat) < 8 := by
  refine ⟨rfl, rfl, rfl, rfl, by norm_num⟩

/-- C2 (counterexample): starting LOCKED, the first 0xAA unlocks the
    port, but the second 0xAA is NOT a no-op command — its bit 7 is
    set, so it halts the CPU (cpu_error = IOHALT, cpu_state stopped),
    refuting the claim that the CPU is not halted. -/
theorem hwctl_double_aa_halts :
    (hwctl_out 0xaa init_state).hwctl_lock = 0 ∧
    (hwctl_out 0xaa (hwctl_out 0xaa init_state)).hwctl_lock = 0xff ∧
    (hwctl_out 0xaa (hwctl_out 0xaa init_state)).cpu_state =
      CpuState.stopped ∧
    (hwctl_out 0xaa (hwctl_out 0xaa init_state)).cpu_error =
      CpuErr.IOHALT ∧
    init_state.cpu_state = CpuState.running := by
  decide

/-- C2 (amended): from any LOCKED state, the first 0xAA unlocks the
    port and changes nothing else; the second 0xAA is consumed as a
    command whose bit 7 is set, so the port re-locks and the CPU halts
    with IOHALT, while the CPU model, PC, reset marker, front-panel
    byte and bank selection are unchanged. -/
theorem hwctl_double_aa (s : SimIOState) (h : s.hwctl_lock ≠ 0) :
    hwctl_out 0xaa s = { s with hwctl_lock := 0 } ∧
    (hwctl_out 0xaa (hwctl_out 0xaa s)).hwctl_lock = 0xff ∧
    (hwctl_out 0xaa (hwctl_out 0xaa s)).cpu_state = CpuState.stopped ∧
    (hwctl_out 0xaa (hwctl_out 0xaa s)).cpu_error = CpuErr.IOHALT ∧
    (hwctl_out 0xaa (hwctl_out 0xaa s)).cpu = s.cpu ∧
    (hwctl_out 0xaa (hwctl_out 0xaa s)).PC = s.PC ∧
    (hwctl_out 0xaa (hwctl_out 0xaa s)).did_reset = s.did_reset ∧
    (hwctl_out 0xaa (hwctl_out 0xaa s)).fp_value = s.fp_value ∧
    (hwctl_out 0xaa (hwctl_out 0xaa s)).selbnk = s.selbnk := by
  have h1 := hwctl_out_locked_aa s h
  have h2 : hwctl_out 0xaa (hwctl_out 0xaa s) =
      { s with hwctl_lock := 0xff, cpu_error := .IOHALT,
               cpu_state := .stopped } := by
    rw [h1]
    exact hwctl_out_aa_unlocked { s with hwctl_lock := 0 } rfl
  refine ⟨h1, ?_, ?_, ?_, ?_, ?_, ?_, ?_, ?_⟩ <;> rw [h2]

/-- Witness for hwctl_double_aa at the initial (locked) state. -/
theorem hwctl_double_aa_witness :
    (hwctl_out 0xaa (hwctl_out 0xaa init_state)).cpu_error =
      CpuErr.IOHALT ∧
    (hwctl_out 0xaa (hwctl_out 0xaa init_state)).hwctl_lock = 0xff := by
  have h := hwctl_double_aa init_state (by decide)
  exact ⟨h.2.2.2.1, h.2.1⟩

/-- C5: from the UNLOCKED state, any output byte re-locks the port
    (hwctl_lock back to 0xff), and over any byte sequence starting
    from a LOCKED state the number of bytes consumed as privileged
    commands never exceeds the number of unlocks — at most one
    privileged command per unlock. -/
theorem hwctl_one_command_per_unlock (s : SimIOState) (b : Nat)
    (bs : List Nat) :
    (s.hwctl_lock = 0 → (hwctl_out b s).hwctl_lock = 0xff) ∧
    (s.hwctl_lock ≠ 0 → hwctl_cmds s bs ≤ hwctl_unlocks s bs) := by
  constructor
  · intro h; exact hwctl_out_lock_of_unlocked b s h
  · intro h
    have h1 := hwctl_cmds_le_unlocks bs s
    rw [if_neg h] at h1
    omega

/-- Witness for hwctl_one_command_per_unlock: an unlocked state
    re-locks on the next byte, and a locked run of
    [0xaa, 0x10, 0xaa, 0xaa] executes no more commands than
    unlocks. -/
theorem hwctl_one_command_per_unlock_witness :
    (hwctl_out 0x40 { init_state with hwctl_lock := 0 }).hwctl_lock =
      0xff ∧
    hwctl_cmds init_state [0xaa, 0x10, 0xaa, 0xaa] ≤
      hwctl_unlocks init_state [0xaa, 0x10, 0xaa, 0xaa] := by
  constructor
  · exact (hwctl_one_command_per_unlock
      { init_state with hwctl_lock := 0 } 0x40 []).1 rfl
  · exact (hwctl_one_command_per_unlock init_state 0x40
      [0xaa, 0x10, 0xaa, 0xaa]).2 (by decide)

/-- C9 (counterexample): with fp_value = 0, writing 7 to port 255
    goes to the dummy front-panel-lights handler, so subsequent reads
    of ports 254 and 255 still return 0, not 7 — refuting the claim
    that an output write on either port sets fp_value. -/
theorem port255_write_does_not_set_fp_value :
    in_dispatch 254 (out_dispatch 255 7 init_state) = some 0 ∧
    in_dispatch 255 (out_dispatch 255 7 init_state) = some 0 ∧
    ¬ in_dispatch 254 (out_dispatch 255 7 init_state) = some 7 := by
  decide

/-- C9 (amended): ports 254 and 255 both read the front-panel byte
    fp_value; a write to port 254 sets fp_value for subsequent reads
    on either port, but a write to port 255 is bound to the dummy
    front-panel-lights handler and changes nothing. -/
theorem fp_port_pair_semantics (s : SimIOState) (d : Nat) :
    port_in_tab 254 = InH.fpsw ∧
    port_in_tab 255 = InH.fpsw ∧
    in_dispatch 254 s = some s.fp_value ∧
    in_dispatch 255 s = some s.fp_value ∧
    port_out_tab 254 = OutH.fpsw ∧
    port_out_tab 255 = OutH.fpled ∧
    (out_dispatch 254 d s).fp_value = d ∧
    in_dispatch 254 (out_dispatch 254 d s) = some d ∧
    in_dispatch 255 (out_dispatch 254 d s) = some d ∧
    out_dispatch 255 d s = s := by
  refine ⟨rfl, rfl, rfl, rfl, rfl, rfl, rfl, rfl, rfl, rfl⟩

/-- C10: reading the console data port with no pending input returns
    the persisted last-received byte and changes nothing, so two
    consecutive reads with no intervening input return equal bytes; a
    read with pending input byte c returns c and persists it; the
    persisted byte is initially zero. -/
theorem siod_in_no_input_persists (s : SimIOState) (c c2 : Nat) :
    siod_in false c s = (s.sio_last, s) ∧
    (siod_in false c2 (siod_in false c s).2).1 =
      (siod_in false c s).1 ∧
    (siod_in true c s).1 = c ∧
    ((siod_in true c s).2).sio_last = c ∧
    init_state.sio_last = 0 := by
  refine ⟨rfl, rfl, rfl, rfl, rfl⟩

/-! ## Claims about the disk module -/

lemma sec_pos_lex_step (SPT : Int) (SEC_SZ : Nat) (t1 s1 t2 s2 : Int)
    (hsz : 1 ≤ SEC_SZ) (h1a : 1 ≤ s1) (h1b : s1 ≤ SPT) (h2a : 1 ≤ s2)
    (hlex : t1 < t2 ∨ (t1 = t2 ∧ s1 < s2)) :
    sec_pos SPT SEC_SZ t1 s1 + SEC_SZ ≤ sec_pos SPT SEC_SZ t2 s2 := by
  have hS : (1 : Int) ≤ (SEC_SZ : Int) := by exact_mod_cast hsz
  have hk : t1 * SPT + s1 + 1 ≤ t2 * SPT + s2 := by
    rcases hlex with hlt | ⟨heq, hs⟩
    · have hSPT : (1 : Int) ≤ SPT := le_trans h1a h1b
      have h5 : (t1 + 1) * SPT ≤ t2 * SPT :=
        mul_le_mul_of_nonneg_right (by omega) (by omega)
      have h7 : (t1 + 1) * SPT = t1 * SPT + SPT := by ring
      linarith
    · subst heq; omega
  have h6 : (t1 * SPT + s1 - 1 + 1) * (SEC_SZ : Int) ≤
      (t2 * SPT + s2 - 1) * (SEC_SZ : Int) :=
    mul_le_mul_of_nonneg_right (by omega) (by omega)
  have h8 : (t1 * SPT + s1 - 1 + 1) * (SEC_SZ : Int) =
      (t1 * SPT + s1 - 1) * (SEC_SZ : Int) + SEC_SZ := by ring
  unfold sec_pos
  linarith

/-- C6: for valid sectors (1 ≤ s ≤ SPT) and a positive sector size,
    the byte offset computed by prep_io equals
    ((track * SPT) + (sector - 1)) * SEC_SZ, is strictly increasing in
    the lexicographic (track, sector) order by at least a full sector,
    and the SEC_SZ-byte ranges of distinct (track, sector) pairs never
    overlap. -/
theorem sec_pos_monotone_disjoint (SPT : Int) (SEC_SZ : Nat)
    (t1 s1 t2 s2 : Int) (hsz : 1 ≤ SEC_SZ)
    (h1a : 1 ≤ s1) (h1b : s1 ≤ SPT) (h2a : 1 ≤ s2) (h2b : s2 ≤ SPT) :
    sec_pos SPT SEC_SZ t1 s1 = ((t1 * SPT) + (s1 - 1)) * SEC_SZ ∧
    ((t1 < t2 ∨ (t1 = t2 ∧ s1 < s2)) →
        sec_pos SPT SEC_SZ t1 s1 + SEC_SZ ≤ sec_pos SPT SEC_SZ t2 s2) ∧
    (¬ (t1 = t2 ∧ s1 = s2) →
        sec_pos SPT SEC_SZ t1 s1 + SEC_SZ ≤ sec_pos SPT SEC_SZ t2 s2 ∨
        sec_pos SPT SEC_SZ t2 s2 + SEC_SZ ≤ sec_pos SPT SEC_SZ t1 s1) := by
  refine ⟨by unfold sec_pos; ring, ?_, ?_⟩
  · exact sec_pos_lex_step SPT SEC_SZ t1 s1 t2 s2 hsz h1a h1b h2a
  · intro hne
    rcases lt_trichotomy t1 t2 with hlt | heq | hgt
    · exact Or.inl
        (sec_pos_lex_step SPT SEC_SZ t1 s1 t2 s2 hsz h1a h1b h2a
          (Or.inl hlt))
    · rcases lt_trichotomy s1 s2 with hs | hseq | hs
      · exact Or.inl
          (sec_pos_lex_step SPT SEC_SZ t1 s1 t2 s2 hsz h1a h1b h2a
            (Or.inr ⟨heq, hs⟩))
      · exact absurd ⟨heq, hseq⟩ hne
      · exact Or.inr
          (sec_pos_lex_step SPT SEC_SZ t2 s2 t1 s1 hsz h2a h2b h1a
            (Or.inr ⟨heq.symm, hs⟩))
    · exact Or.inr
        (sec_pos_lex_step SPT SEC_SZ t2 s2 t1 s1 hsz h2a h2b h1a
          (Or.inl hgt))

/-- Witness for sec_pos_monotone_disjoint with SPT = 26,
    SEC_SZ = 128. -/
theorem sec_pos_monotone_disjoint_witness :
    (sec_pos 26 128 0 1 + 128 ≤ sec_pos 26 128 0 2) ∧
    (sec_pos 26 128 1 1 + 128 ≤ sec_pos 26 128 0 26 ∨
      sec_pos 26 128 0 26 + 128 ≤ sec_pos 26 128 1 1) := by
  constructor
  · exact (sec_pos_monotone_disjoint 26 128 0 1 0 2 (by norm_num)
      (by norm_num) (by norm_num) (by norm_num) (by norm_num)).2.1
      (Or.inr ⟨rfl, by norm_num⟩)
  · exact (sec_pos_monotone_disjoint 26 128 1 1 0 26 (by norm_num)
      (by norm_num) (by norm_num) (by norm_num) (by norm_num)).2.2
      (by intro hc; exact absurd hc.1 (by norm_num))

lemma read_sec_of_prep_fail (env : DiskEnv) (drive track sector : Int)
    (addr : Nat) (st : FdcStat) (tr : List Ev)
    (hst : ¬ st = .FDC_STAT_OK)
    (hp : prep_io env drive track sector addr = (st, tr)) :
    read_sec env drive track sector addr = (st, tr) := by
  unfold read_sec
  rw [hp]
  simp [hst]

lemma write_sec_of_prep_fail (env : DiskEnv) (drive track sector : Int)
    (addr : Nat) (st : FdcStat) (tr : List Ev)
    (hst : ¬ st = .FDC_STAT_OK)
    (hp : prep_io env drive track sector addr = (st, tr)) :
    write_sec env drive track sector addr = (st, tr) := by
  unfold write_sec
  rw [hp]
  simp [hst]

/-- C3: the validation checks of prep_io are applied in the order
    drive range, track ≤ TRK, sector ∈ [1, SPT], DMA address range,
    disk mounted, the first failing check fixing the status; both
    read_sec and write_sec return a validation failure with an empty
    event trace (no file opened, sought, read or written); track = TRK
    with sector = SPT passes validation, while track = TRK + 1,
    sector = 0 and sector = SPT + 1 fail with the corresponding
    status. -/
theorem fdc_validation_order (env : DiskEnv) (drive track sector : Int)
    (addr : Nat) :
    ((drive < 0 ∨ drive > 3) →
        prep_io env drive track sector addr = (.FDC_STAT_DISK, [])) ∧
    (¬ (drive < 0 ∨ drive > 3) → track > env.TRK →
        prep_io env drive track sector addr = (.FDC_STAT_TRACK, []) ∧
        read_sec env drive track sector addr = (.FDC_STAT_TRACK, []) ∧
        write_sec env drive track sector addr = (.FDC_STAT_TRACK, [])) ∧
    (¬ (drive < 0 ∨ drive > 3) → track ≤ env.TRK →
        (sector < 1 ∨ sector > env.SPT) →
        prep_io env drive track sector addr = (.FDC_STAT_SEC, []) ∧
        read_sec env drive track sector addr = (.FDC_STAT_SEC, []) ∧
        write_sec env drive track sector addr = (.FDC_STAT_SEC, [])) ∧
    (¬ (drive < 0 ∨ drive > 3) → track ≤ env.TRK →
        1 ≤ sector → sector ≤ env.SPT → addr > 0xff7f →
        prep_io env drive track sector addr = (.FDC_STAT_DMAADR, [])) ∧
    (¬ (drive < 0 ∨ drive > 3) → track ≤ env.TRK →
        1 ≤ sector → sector ≤ env.SPT → addr ≤ 0xff7f →
        env.disks drive = "" →
        prep_io env drive track sector addr = (.FDC_STAT_NODISK, [])) ∧
    (¬ (drive < 0 ∨ drive > 3) → addr ≤ 0xff7f →
        env.disks drive ≠ "" →
        env.openOk = true → env.seekOk = true → 1 ≤ env.SPT →
        (prep_io env drive env.TRK env.SPT addr).1 = .FDC_STAT_OK) := by
  refine ⟨?_, ?_, ?_, ?_, ?_, ?_⟩
  · intro hdr
    unfold prep_io
    rw [if_pos hdr]
  · intro hdr htr
    have hp : prep_io env drive track sector addr =
        (.FDC_STAT_TRACK, []) := by
      unfold prep_io
      rw [if_neg hdr, if_pos htr]
    exact ⟨hp, read_sec_of_prep_fail _ _ _ _ _ _ _ (by simp) hp,
      write_sec_of_prep_fail _ _ _ _ _ _ _ (by simp) hp⟩
  · intro hdr htr hs
    have hp : prep_io env drive track sector addr =
        (.FDC_STAT_SEC, []) := by
      unfold prep_io
      rw [if_neg hdr, if_neg (by omega), if_pos hs]
    exact ⟨hp, read_sec_of_prep_fail _ _ _ _ _ _ _ (by simp) hp,
      write_sec_of_prep_fail _ _ _ _ _ _ _ (by simp) hp⟩
  · intro hdr htr hs1 hs2 ha
    unfold prep_io
    rw [if_neg hdr, if_neg (by omega), if_neg (by omega), if_pos ha]
  · intro hdr htr hs1 hs2 ha hdisk
    unfold prep_io
    rw [if_neg hdr, if_neg (by omega), if_neg (by omega),
      if_neg (by omega), if_pos hdisk]
  · intro hdr ha hdisk hopen hseek hspt
    unfold prep_io
    rw [if_neg hdr, if_neg (by omega), if_neg (by omega),
      if_neg (by omega), if_neg hdisk, if_neg (by simp [hopen]),
      if_neg (by simp [hseek])]

/-- Witness for fdc_validation_order at a concrete environment
    (TRK = 76, SPT = 26, drive 1 mounted). -/
theorem fdc_validation_order_witness :
    prep_io ⟨76, 26, 128, fun _ => "/sdcard/DISKS80/A.DSK", true, true,
        some [], some 0⟩ 1 77 5 0 = (.FDC_STAT_TRACK, []) ∧
    read_sec ⟨76, 26, 128, fun _ => "/sdcard/DISKS80/A.DSK", true, true,
        some [], some 0⟩ 1 5 0 0 = (.FDC_STAT_SEC, []) ∧
    (prep_io ⟨76, 26, 128, fun _ => "/sdcard/DISKS80/A.DSK", true, true,
        some [], some 0⟩ 1 76 26 0).1 = .FDC_STAT_OK := by
  refine ⟨?_, ?_, ?_⟩
  · exact ((fdc_validation_order _ 1 77 5 0).2.1 (by omega)
      (by norm_num)).1
  · exact ((fdc_validation_order _ 1 5 0 0).2.2.1 (by omega)
      (by norm_num) (by norm_num)).2.1
  · exact (fdc_validation_order _ 1 76 26 0).2.2.2.2.2 (by omega)
      (by norm_num) (by simp) rfl rfl (by norm_num)

lemma prep_io_no_dmaW (env : DiskEnv) (drive track sector : Int)
    (addr a b : Nat) :
    Ev.dmaW a b ∉ (prep_io env drive track sector addr).2 := by
  unfold prep_io
  split_ifs
  case _ => simp
  case _ => simp
  case _ => simp
  case _ => simp
  all_goals by_cases hd : env.disks drive = ""
  all_goals simp [hd]

/-- C4: when the modelled file read returns fewer than SEC_SZ bytes
    (or a negative result), read_sec returns FDC_STAT_READ whenever
    the preparation succeeded, and its event trace contains no
    dma_write at all — a short read never touches emulated memory. -/
theorem read_sec_no_partial_dma (env : DiskEnv) (drive track sector : Int)
    (addr : Nat)
    (hshort : env.readRes = none ∨
        ∃ bs, env.readRes = some bs ∧ bs.length < env.SEC_SZ) :
    ((prep_io env drive track sector addr).1 = .FDC_STAT_OK →
        (read_sec env drive track sector addr).1 = .FDC_STAT_READ) ∧
    (∀ a b, Ev.dmaW a b ∉ (read_sec env drive track sector addr).2) := by
  constructor
  · intro hok
    rcases hshort with hn | ⟨bs, hbs, hlen⟩
    · simp [read_sec, hok, hn]
    · simp [read_sec, hok, hbs, hlen]
  · intro a b
    by_cases hok : (prep_io env drive track sector addr).1 = .FDC_STAT_OK
    · rcases hshort with hn | ⟨bs, hbs, hlen⟩
      · simp [read_sec, hok, hn,
          prep_io_no_dmaW env drive track sector addr a b]
      · simp [read_sec, hok, hbs, hlen,
          prep_io_no_dmaW env drive track sector addr a b]
    · simp [read_sec, hok,
        prep_io_no_dmaW env drive track sector addr a b]

/-- Witness for read_sec_no_partial_dma: a mounted drive whose read
    yields a 3-byte short sector. -/
theorem read_sec_no_partial_dma_witness :
    ((prep_io ⟨76, 26, 128, fun _ => "/sdcard/DISKS80/A.DSK", true, true,
        some [1, 2, 3], some 0⟩ 0 0 1 0).1 = .FDC_STAT_OK →
      (read_sec ⟨76, 26, 128, fun _ => "/sdcard/DISKS80/A.DSK", true, true,
        some [1, 2, 3], some 0⟩ 0 0 1 0).1 = .FDC_STAT_READ) ∧
    Ev.dmaW 0 1 ∉ (read_sec ⟨76, 26, 128,
        fun _ => "/sdcard/DISKS80/A.DSK", true, true,
        some [1, 2, 3], some 0⟩ 0 0 1 0).2 := by
  have h := read_sec_no_partial_dma
    ⟨76, 26, 128, fun _ => "/sdcard/DISKS80/A.DSK", true, true,
      some [1, 2, 3], some 0⟩ 0 0 1 0
    (Or.inr ⟨[1, 2, 3], rfl, by norm_num⟩)
  exact ⟨h.1, h.2 0 1⟩

/-- C7: mount_disk resolves the canonical path and rejects the mount,
    leaving the whole registry unchanged, when another drive already
    holds exactly that path or the file cannot be opened; on success
    the probe trace is open-then-close and only slot d changes, to the
    canonical path. -/
theorem mount_disk_guards (openOk : Bool) (drive : Fin 4) (name : String)
    (disks : Fin 4 → String) :
    ((∃ i : Fin 4, i ≠ drive ∧ disks i = canon_path name) →
        mount_disk openOk drive name disks = (disks, [])) ∧
    (openOk = false →
        (mount_disk openOk drive name disks).1 = disks) ∧
    (¬ (∃ i : Fin 4, i ≠ drive ∧ disks i = canon_path name) →
        openOk = true →
        (mount_disk openOk drive name disks).1 drive = canon_path name ∧
        (∀ i : Fin 4, i ≠ drive →
            (mount_disk openOk drive name disks).1 i = disks i) ∧
        (mount_disk openOk drive name disks).2 =
          [Ev.openf (canon_path name), Ev.closef]) := by
  refine ⟨?_, ?_, ?_⟩
  · intro hdup
    unfold mount_disk
    rw [if_pos hdup]
  · intro hop
    subst hop
    unfold mount_disk
    by_cases hdup : ∃ i : Fin 4, i ≠ drive ∧ disks i = canon_path name
    · rw [if_pos hdup]
    · rw [if_neg hdup, if_pos (by simp)]
  · intro hdup hop
    subst hop
    unfold mount_disk
    rw [if_neg hdup, if_neg (by simp)]
    exact ⟨Function.update_same drive _ disks,
      fun i hi => Function.update_noteq hi _ disks, rfl⟩

/-- Witness for mount_disk_guards: duplicate rejection on a registry
    where drive 1 holds the path, and a successful mount on an empty
    registry. -/
theorem mount_disk_guards_witness :
    mount_disk true 0 "A"
      (fun _ => canon_path "A") = ((fun _ => canon_path "A"), []) ∧
    (mount_disk true 0 "A" (fun _ => "")).1 0 = canon_path "A" ∧
    (mount_disk true 0 "A" (fun _ => "")).2 =
      [Ev.openf (canon_path "A"), Ev.closef] := by
  refine ⟨?_, ?_, ?_⟩
  · exact (mount_disk_guards true 0 "A" (fun _ => canon_path "A")).1
      ⟨1, by decide, rfl⟩
  · exact ((mount_disk_guards true 0 "A" (fun _ => "")).2.2
      (by rintro ⟨i, -, hi⟩; exact absurd hi (by simp [canon_path])) rfl).1
  · exact ((mount_disk_guards true 0 "A" (fun _ => "")).2.2
      (by rintro ⟨i, -, hi⟩; exact absurd hi (by simp [canon_path])) rfl).2.2

/-- C8 (counterexample): a zero-length first read makes load_file
    report a clean zero-byte load, not an I/O error — refuting the
    claim that a zero-length read is reported as an I/O error. -/
theorem load_file_zero_read_not_error :
    (load_file_run 128 [some []] 0).1 = LoadResult.loaded 0 ∧
    (load_file_run 128 [some []] 0).1 ≠ LoadResult.err ∧
    (load_file_run 128 [some []] 0).2 = [] := by
  decide

/-- C8 (amended): load_file streams the file sequentially into memory
    starting at address 0 in SEC_SZ-sized chunks, stopping at the
    first chunk shorter than SEC_SZ; a negative-length read is
    reported as an I/O error, while a zero-length read is treated as
    clean end-of-file. -/
theorem load_file_streams (S : Nat) (rs : List (Option (List Nat)))
    (chunk : List Nat) (i : Nat) :
    load_file true S rs = some (load_file_run S rs 0) ∧
    load_file false S rs = none ∧
    load_file_run S (none :: rs) i = (.err, []) ∧
    load_file_run S (some [] :: rs) i = (.loaded i, []) ∧
    (0 < chunk.length → chunk.length < S →
        load_file_run S (some chunk :: rs) i =
          (.loaded (i + chunk.length),
           chunk.enum.map fun q => (i + q.1, q.2))) ∧
    (chunk.length = S → 0 < S →
        load_file_run S (some chunk :: rs) i =
          ((load_file_run S rs (i + S)).1,
           (chunk.enum.map fun q => (i + q.1, q.2)) ++
             (load_file_run S rs (i + S)).2)) := by
  refine ⟨by simp [load_file], by simp [load_file], rfl, ?_, ?_, ?_⟩
  · simp [load_file_run]
  · intro h0 h1
    have hne : ¬ chunk.length = 0 := by omega
    simp only [load_file_run]
    rw [if_neg hne, if_pos h1]
  · intro hS h0
    have hne : ¬ chunk.length = 0 := by omega
    have hnlt : ¬ chunk.length < S := by omega
    simp only [load_file_run]
    rw [if_neg hne, if_neg hnlt]

/-- Witness for load_file_streams: a 1-byte short chunk and a
    full 1-byte chunk with S = 1. -/
theorem load_file_streams_witness :
    load_file_run 128 [some [5]] 0 =
      (LoadResult.loaded (0 + [5].length),
       [5].enum.map fun q => (0 + q.1, q.2)) ∧
    load_file_run 1 [some [7]] 0 =
      ((load_file_run 1 [] (0 + 1)).1,
       ([7].enum.map fun q => (0 + q.1, q.2)) ++
         (load_file_run 1 [] (0 + 1)).2) := by
  constructor
  · exact (load_file_streams 128 [] [5] 0).2.2.2.2.1 (by norm_num)
      (by norm_num)
  · exact (load_file_streams 1 [] [7] 0).2.2.2.2.2 (by norm_num)
      (by norm_num)

end Cyd80
